import Mathlib

/-!
Shallow embedding of the Channel routing core of the aws-cdi-samples
html-motion-graphics-overlay pipeline (Channel.cpp and Connection.cpp).

Machine integers (uint16_t stream ids, size_t buffer sizes) are modelled as
Nat: none of the routines performs arithmetic that can overflow a 64-bit
size_t or wrap a uint16_t, they only compare, count and look up. Stateful
C++ methods that mutate the Channel in place become functions from Channel
to Channel; methods that throw InvalidConfigurationException return an
Except value, and when a method mutates before it can throw, it returns the
mutated-so-far state together with the error so that exception atomicity is
a real theorem and not an artefact of the encoding. Side effects that the
claims talk about (dialing, accepting, arming a receive, triggering
open_connections, log warnings) are reified as an action list.

Shared-pointer aliasing between the channel stream list and each
connection's bound-stream list is not modelled: every claim reads counters
through the channel list or through the value that the source handler was
given, never through both aliases at once.
-/

namespace CdiTools

inductive ConnectionDirection
  | In
  | Out
  | Both
deriving DecidableEq, Repr

inductive ConnectionMode
  | Client
  | Server
deriving DecidableEq, Repr

inductive ConnectionType
  | Tcp
  | Cdi
deriving DecidableEq, Repr

inductive ConnectionStatus
  | Closed
  | Connecting
  | Open
  | Faulted
deriving DecidableEq, Repr

/-- Payload types. PayloadType.h is not part of the sources; the spec lists
Video, Audio and Ancillary as the recognized payload types, and the default
branch of the switch in Connection::add_stream rejects any other enumerator.
The constructor Unsupported stands for such an out-of-range enumerator. -/
inductive PayloadType
  | Video
  | Audio
  | Ancillary
  | Unsupported
deriving DecidableEq, Repr

/-- Stream descriptor: identity, payload type and the three monotonic
counters. The per-variant metadata (frame geometry, sampling, language) is
carried by the C++ subclasses but never read by the router, per spec 4.3. -/
structure Stream where
  id : Nat
  ptype : PayloadType
  received : Nat
  transmitted : Nat
  errors : Nat
deriving DecidableEq, Repr

def Stream.received_payload (s : Stream) : Stream :=
  { s with received := s.received + 1 }

def Stream.transmitted_payload (s : Stream) : Stream :=
  { s with transmitted := s.transmitted + 1 }

def Stream.payload_error (s : Stream) : Stream :=
  { s with errors := s.errors + 1 }

structure Payload where
  streamId : Nat
  sequence : Nat
  size : Nat
deriving DecidableEq, Repr

/-- Modelled from the spec: PayloadBuffer.cpp is not under src (only
PayloadBuffer.h is), so the bounded FIFO follows spec section 4.1: a queue
with fixed capacity whose enqueue pushes at the tail when not full and
otherwise discards the payload and reports false. -/
structure PayloadBuffer where
  capacity : Nat
  items : List Payload
deriving DecidableEq, Repr

def PayloadBuffer.size (b : PayloadBuffer) : Nat :=
  b.items.length

def PayloadBuffer.is_full (b : PayloadBuffer) : Bool :=
  decide (b.capacity ≤ b.items.length)

def PayloadBuffer.is_empty (b : PayloadBuffer) : Bool :=
  decide (b.items.length = 0)

/-- Modelled from the spec: enqueue pushes at the tail if not full, else
discards the payload and returns false (spec section 4.1). -/
def PayloadBuffer.enqueue (b : PayloadBuffer) (p : Payload) : PayloadBuffer × Bool :=
  if b.is_full then (b, false)
  else ({ b with items := b.items ++ [p] }, true)

/-- Modelled from the spec: front returns the head element; undefined when
empty, rendered as Option. -/
def PayloadBuffer.front (b : PayloadBuffer) : Option Payload :=
  b.items.head?

/-- Modelled from the spec: pop_front removes the head element. -/
def PayloadBuffer.pop_front (b : PayloadBuffer) : PayloadBuffer :=
  { b with items := b.items.tail }

def PayloadBuffer.clear (b : PayloadBuffer) : PayloadBuffer :=
  { b with items := [] }

/-- The per-connection pair stored in Channel::connection_buffers_:
the PayloadBuffer and the overflow-warning latch bool. -/
structure ConnState where
  buffer : PayloadBuffer
  latched : Bool
deriving DecidableEq, Repr

/-- The hysteresis low-water mark of Channel::get_connection_buffer.
The C++ computes static_cast of capacity * 0.8 in double arithmetic, which
truncates to the floor of 4 * capacity / 5 for every capacity below roughly
2 to the 50th (the IEEE double nearest to 0.8 exceeds 0.8 by about 4.4e-17,
far less than the distance from 0.8 * capacity to the next integer at these
magnitudes), so it is rendered as exact Nat division. -/
def lowWaterMark (capacity : Nat) : Nat :=
  capacity * 4 / 5

/-- Channel::get_connection_buffer, lines 242-266: the latch maintenance on
the (buffer, latched) pair for one connection. Returns the updated pair and
whether the overflow warning was emitted by this call. The lookup and
assert against connection_buffers_ live at the Channel level. -/
def get_connection_buffer_step (st : ConnState) : ConnState × Bool :=
  let buffer_size := st.buffer.size
  let r1 :=
    if st.buffer.is_full then
      if !st.latched then (true, true) else (st.latched, false)
    else (st.latched, false)
  let latched2 :=
    if r1.1 then decide (buffer_size > lowWaterMark st.buffer.capacity) else r1.1
  ({ st with latched := latched2 }, r1.2)

/-- Connection attributes read by the router (Connection.h state plus the
bound-stream list streams_). -/
structure Conn where
  name : String
  host : String
  port : Nat
  ctype : ConnectionType
  mode : ConnectionMode
  direction : ConnectionDirection
  status : ConnectionStatus
  streams : List Stream
deriving DecidableEq, Repr

/-- The InvalidConfigurationException variants thrown by the routines the
claims cover; each constructor stands for the corresponding message. -/
inductive ConfigError
  | unknownConnection (name : String)
  | duplicateInput (sid : Nat)
  | unknownStream (sid : Nat)
  | unsupportedPayloadType
  | mappedToUnknownConnection (sid : Nat) (name : String)
  | mappedToUnknownStream (name : String) (sid : Nat)
  | noStreamAssigned (name : String)
deriving DecidableEq, Repr

/-- Connection::add_stream: validates the payload type, then appends the
stream to the connection's bound list. On error nothing is appended (the
switch precedes the push_back). -/
def Conn.add_stream (c : Conn) (s : Stream) : Conn × Except ConfigError Unit :=
  match s.ptype with
  | .Video => ({ c with streams := c.streams ++ [s] }, .ok ())
  | .Audio => ({ c with streams := c.streams ++ [s] }, .ok ())
  | .Ancillary => ({ c with streams := c.streams ++ [s] }, .ok ())
  | .Unsupported => (c, .error .unsupportedPayloadType)

/-- Connection::get_stream: when the identifier is nonzero and a bound
stream matches, return the first match; otherwise return the first bound
stream. Dereferencing begin of an empty list is undefined behaviour in the
source and is rendered as none. -/
def Conn.get_stream (c : Conn) (sid : Nat) : Option Stream :=
  if sid ≠ 0 then
    match c.streams.find? (fun s => s.id == sid) with
    | some s => some s
    | none => c.streams.head?
  else c.streams.head?

/-- The Channel state the claims touch: the connection list, the stream
list, the name-to-stream-id bimap rendered as its entry list in insertion
order, and the per-connection (buffer, latch) map keyed by name. -/
structure Channel where
  connections : List Conn
  streams : List Stream
  channelMap : List (String × Nat)
  buffers : List (String × ConnState)
deriving DecidableEq, Repr

def Channel.empty : Channel :=
  { connections := [], streams := [], channelMap := [], buffers := [] }

/-- Channel::get_stream: first stream whose id matches, else throw. -/
def Channel.get_stream (ch : Channel) (sid : Nat) : Except ConfigError Stream :=
  match ch.streams.find? (fun s => s.id == sid) with
  | some s => .ok s
  | none => .error (.unknownStream sid)

/-- Loop body of Channel::get_stream_connections over the bimap entries
whose stream id matches: resolve each mapped connection name (throwing when
it is unknown) and keep those matching the requested direction. -/
def getStreamConnectionsGo (conns : List Conn) (sid : Nat) (dir : ConnectionDirection) :
    List (String × Nat) → Except ConfigError (List Conn)
  | [] => .ok []
  | e :: rest =>
    if e.2 == sid then
      match conns.find? (fun c => c.name == e.1) with
      | none => .error (.mappedToUnknownConnection sid e.1)
      | some c =>
        match getStreamConnectionsGo conns sid dir rest with
        | .error err => .error err
        | .ok cs =>
          if dir == ConnectionDirection.Both || c.direction == dir then .ok (c :: cs)
          else .ok cs
    else getStreamConnectionsGo conns sid dir rest

def Channel.get_stream_connections (ch : Channel) (sid : Nat) (dir : ConnectionDirection) :
    Except ConfigError (List Conn) :=
  getStreamConnectionsGo ch.connections sid dir ch.channelMap

/-- Loop body of Channel::get_connection_streams: resolve every stream id
mapped to the connection name, throwing when one is unknown. -/
def getConnectionStreamsGo (streams : List Stream) (name : String) :
    List (String × Nat) → Except ConfigError (List Stream)
  | [] => .ok []
  | e :: rest =>
    if e.1 == name then
      match streams.find? (fun s => s.id == e.2) with
      | none => .error (.mappedToUnknownStream name e.2)
      | some s =>
        match getConnectionStreamsGo streams name rest with
        | .error err => .error err
        | .ok ss => .ok (s :: ss)
    else getConnectionStreamsGo streams name rest

def Channel.get_connection_streams (ch : Channel) (name : String) :
    Except ConfigError (List Stream) :=
  getConnectionStreamsGo ch.streams name ch.channelMap

/-- Replace the first connection carrying the given name (the mutation
through the find_if iterator in map_stream). -/
def replaceFirstConn : List Conn → String → Conn → List Conn
  | [], _, _ => []
  | c :: rest, n, c' =>
    if c.name == n then c' :: rest else c :: replaceFirstConn rest n c'

/-- Tail of Channel::map_stream after the duplicate-input check: resolve the
stream (throw when unknown), bind it to the connection (throw on an
unsupported payload type, mutating nothing), then record the pair in the
bimap. Mutations happen only after every check has passed, mirroring the
statement order of the source. -/
def mapStreamRest (ch : Channel) (sid : Nat) (cname : String) (c : Conn) :
    Channel × Except ConfigError Unit :=
  match ch.get_stream sid with
  | .error e => (ch, .error e)
  | .ok s =>
    match c.add_stream s with
    | (_, .error e) => (ch, .error e)
    | (c', .ok ()) =>
      ({ ch with
          connections := replaceFirstConn ch.connections cname c',
          channelMap := ch.channelMap ++ [(cname, sid)] }, .ok ())

/-- Channel::map_stream, lines 346-366. -/
def Channel.map_stream (ch : Channel) (sid : Nat) (cname : String) :
    Channel × Except ConfigError Unit :=
  match ch.connections.find? (fun c => c.name == cname) with
  | none => (ch, .error (.unknownConnection cname))
  | some c =>
    if c.direction = ConnectionDirection.In then
      match ch.get_stream_connections sid ConnectionDirection.In with
      | .error e => (ch, .error e)
      | .ok scs =>
        if scs.length > 0 then (ch, .error (.duplicateInput sid))
        else mapStreamRest ch sid cname c
    else mapStreamRest ch sid cname c

/-- Loop of Channel::validate_configuration: throw at the first connection
with no bimap entry. -/
def validateGo (cmap : List (String × Nat)) : List Conn → Except ConfigError Unit
  | [] => .ok ()
  | c :: rest =>
    if cmap.any (fun e => e.1 == c.name) then validateGo cmap rest
    else .error (.noStreamAssigned c.name)

def Channel.validate_configuration (ch : Channel) : Except ConfigError Unit :=
  validateGo ch.channelMap ch.connections

/-- Channel::add_video_stream: constructs the descriptor and appends it with
no uniqueness check (the source carries a TODO admitting the missing
validation). The geometry arguments are stored on the VideoStream subclass
and never read by the router. -/
def Channel.add_video_stream (ch : Channel) (sid _frame_width _frame_height
    _bytes_per_pixel _frame_rate_numerator _frame_rate_denominator : Nat) :
    Channel × Stream :=
  let s : Stream := { id := sid, ptype := .Video, received := 0, transmitted := 0, errors := 0 }
  ({ ch with streams := ch.streams ++ [s] }, s)

/-- Channel::add_audio_stream, same shape as add_video_stream. -/
def Channel.add_audio_stream (ch : Channel) (sid _channel_grouping
    _sampling_rate _bytes_per_sample : Nat) (_language : String) :
    Channel × Stream :=
  let s : Stream := { id := sid, ptype := .Audio, received := 0, transmitted := 0, errors := 0 }
  ({ ch with streams := ch.streams ++ [s] }, s)

/-- Channel::add_ancillary_stream, same shape as add_video_stream. -/
def Channel.add_ancillary_stream (ch : Channel) (sid : Nat) : Channel × Stream :=
  let s : Stream := { id := sid, ptype := .Ancillary, received := 0, transmitted := 0, errors := 0 }
  ({ ch with streams := ch.streams ++ [s] }, s)

/-- The observable side effects of the router handlers: transport calls,
log warnings, recovery triggers. clearOutputBuffers stands for the
buffer-clearing loop of lines 72-78 of open_connections, which no claim
decomposes further. -/
inductive ChanAction
  | dial (name : String)
  | accept (name : String)
  | armReceive (name : String)
  | callAsyncRead (name : String)
  | callAsyncWrite (name : String)
  | openConnections
  | clearOutputBuffers (name : String)
  | invokeHandler
  | overflowWarning (name : String)
  | assertFailed
deriving DecidableEq, Repr

def lookupBuffer (ch : Channel) (n : String) : Option ConnState :=
  (ch.buffers.find? (fun e => e.1 == n)).map (fun e => e.2)

def setFirstBuffer : List (String × ConnState) → String → ConnState → List (String × ConnState)
  | [], _, _ => []
  | e :: rest, n, cs =>
    if e.1 == n then (e.1, cs) :: rest else e :: setFirstBuffer rest n cs

def Channel.setBuffer (ch : Channel) (n : String) (cs : ConnState) : Channel :=
  { ch with buffers := setFirstBuffer ch.buffers n cs }

/-- In-place counter update through the shared pointer returned by
Channel::get_stream: the first stream whose id matches. -/
def updateFirstStream : List Stream → Nat → (Stream → Stream) → List Stream
  | [], _, _ => []
  | s :: rest, sid, f =>
    if s.id == sid then f s :: rest else s :: updateFirstStream rest sid f

def Channel.updateStreamCounter (ch : Channel) (sid : Nat) (f : Stream → Stream) : Channel :=
  { ch with streams := updateFirstStream ch.streams sid f }

/-- Body of the fan-out loop of Channel::read_complete (lines 140-160) for
one output connection: skip and trigger open_connections when the output is
not Open; otherwise run the latch maintenance of get_connection_buffer,
record a stream error when the buffer is full, and enqueue the payload.
The assertFailed action marks the assert inside get_connection_buffer
firing on a connection with no registered buffer. -/
def processOutput (ch : Channel) (sid : Nat) (p : Payload) (o : Conn) :
    Channel × List ChanAction :=
  if o.status ≠ ConnectionStatus.Open then (ch, [.openConnections])
  else
    match lookupBuffer ch o.name with
    | none => (ch, [.assertFailed])
    | some cs =>
      let r := get_connection_buffer_step cs
      let ch1 := if r.1.buffer.is_full then ch.updateStreamCounter sid Stream.payload_error else ch
      let cs2 := { r.1 with buffer := (r.1.buffer.enqueue p).1 }
      (ch1.setBuffer o.name cs2, if r.2 then [.overflowWarning o.name] else [])

def processOutputs (sid : Nat) (p : Payload) : Channel → List Conn → Channel × List ChanAction
  | ch, [] => (ch, [])
  | ch, o :: rest =>
    let r1 := processOutput ch sid p o
    let r2 := processOutputs sid p r1.1 rest
    (r2.1, r1.2 ++ r2.2)

/-- Channel::read_complete, lines 124-167. The stream lookup can throw for
an unknown stream identifier; the exception propagates and skips the rest
of the handler, including the re-arm. On a completion error the fan-out is
skipped; the re-arm at the end runs for non-CDI connections only. -/
def Channel.read_complete (ch : Channel) (c : Conn) (err : Bool) (p : Payload) :
    Channel × List ChanAction × Except ConfigError Unit :=
  match ch.get_stream p.streamId with
  | .error e => (ch, [], .error e)
  | .ok _ =>
    let ch1 := ch.updateStreamCounter p.streamId Stream.received_payload
    let ch2 := if err then ch1.updateStreamCounter p.streamId Stream.payload_error else ch1
    let rearm : List ChanAction :=
      if c.ctype ≠ ConnectionType.Cdi then [.callAsyncRead c.name] else []
    if err then (ch2, rearm, .ok ())
    else
      match ch2.get_stream_connections p.streamId ConnectionDirection.Out with
      | .error e => (ch2, [], .error e)
      | .ok outs =>
        let r := processOutputs p.streamId p ch2 outs
        (r.1, r.2 ++ rearm, .ok ())

/-- Channel::write_complete, lines 209-240: bump the transmitted counter of
the stream bound at transmit time unconditionally, bump the error counter
on an errored completion, then pop the head of the connection's buffer
(running the latch maintenance of get_connection_buffer) and continue the
write loop. -/
def Channel.write_complete (ch : Channel) (c : Conn) (sid : Nat) (err : Bool) :
    Channel × List ChanAction :=
  let ch1 := ch.updateStreamCounter sid Stream.transmitted_payload
  let ch2 := if err then ch1.updateStreamCounter sid Stream.payload_error else ch1
  match lookupBuffer ch2 c.name with
  | none => (ch2, [.assertFailed])
  | some cs =>
    let r := get_connection_buffer_step cs
    let cs2 := { r.1 with buffer := r.1.buffer.pop_front }
    (ch2.setBuffer c.name cs2,
      (if r.2 then [.overflowWarning c.name] else []) ++ [.callAsyncWrite c.name])

/-- Channel::async_read, lines 102-122: nothing when the channel is
inactive; on an error with a connection no longer Open, trigger
open_connections instead of re-arming; otherwise arm the next receive. -/
def async_read_actions (active : Bool) (c : Conn) (err : Bool) : List ChanAction :=
  if !active then []
  else if err && c.status != ConnectionStatus.Open then [.openConnections]
  else [.armReceive c.name]

/-- The completion handler built inside Channel::open_connections
(lines 58-88): on failure invoke the user handler; on success, for an
active channel and an input connection start the read loop (arming the CDI
receive directly, or going through async_read for other transports) and
clear the output buffers of the associated streams; otherwise enter the
write loop. -/
def connection_handler_actions (active : Bool) (c : Conn) (ec : Bool) : List ChanAction :=
  if ec then [.invokeHandler]
  else if active && c.direction == ConnectionDirection.In then
    (if c.ctype ≠ ConnectionType.Cdi then async_read_actions active c false
     else [.armReceive c.name]) ++ [.clearOutputBuffers c.name]
  else [.callAsyncWrite c.name]

/-- Channel::open_connections, lines 90-98: initiate a dial (Client) or an
accept (Server) for exactly the connections whose status is Closed. -/
def Channel.open_connections_actions (ch : Channel) : List ChanAction :=
  ch.connections.filterMap fun c =>
    if c.status == ConnectionStatus.Closed then
      some (if c.mode == ConnectionMode.Client then .dial c.name else .accept c.name)
    else none

/-- The router-level events a single input connection can see: a completed
open attempt, or a receive completion delivered to read_complete. Each
event carries the snapshot of the channel state and the activity flag the
handler observes when it runs. -/
inductive RouterEv
  | opened (active : Bool) (ec : Bool)
  | completed (ch : Channel) (active : Bool) (err : Bool) (p : Payload)
deriving DecidableEq, Repr

def RouterEv.isOpened : RouterEv → Bool
  | .opened _ _ => true
  | .completed _ _ _ _ => false

def countArms (acts : List ChanAction) : Nat :=
  acts.countP fun a => match a with | .armReceive _ => true | _ => false

def countAsyncReadCalls (acts : List ChanAction) : Nat :=
  acts.countP fun a => match a with | .callAsyncRead _ => true | _ => false

/-- Number of async_receive calls the router issues on connection c while
handling one event: an open completion arms through the handler above; a
receive completion arms only through the async_read call that
read_complete makes for non-CDI transports. -/
def evArms (c : Conn) : RouterEv → Nat
  | .opened active ec => countArms (connection_handler_actions active c ec)
  | .completed ch active err p =>
    let acts := (ch.read_complete c err p).2.1
    countArms acts + countAsyncReadCalls acts * countArms (async_read_actions active c err)

def traceArms (c : Conn) (tr : List RouterEv) : Nat :=
  (tr.map (evArms c)).sum

/-! Concrete channel used by the witnesses and counterexamples. -/

def streamV : Stream :=
  { id := 1, ptype := .Video, received := 0, transmitted := 0, errors := 0 }

def payload0 : Payload :=
  { streamId := 1, sequence := 0, size := 10 }

def connIn : Conn :=
  { name := "in0", host := "h", port := 1000, ctype := .Tcp, mode := .Client,
    direction := .In, status := .Open, streams := [streamV] }

def connOutA : Conn :=
  { name := "a", host := "h", port := 1001, ctype := .Tcp, mode := .Server,
    direction := .Out, status := .Open, streams := [streamV] }

def connOutB : Conn :=
  { name := "b", host := "h", port := 1002, ctype := .Tcp, mode := .Server,
    direction := .Out, status := .Closed, streams := [streamV] }

def connCdi : Conn :=
  { connIn with name := "cdi0", ctype := .Cdi }

def chDemo : Channel :=
  { connections := [connIn, connOutA, connOutB], streams := [streamV],
    channelMap := [("in0", 1), ("a", 1), ("b", 1)],
    buffers := [("a", ⟨⟨2, []⟩, false⟩), ("b", ⟨⟨2, []⟩, false⟩)] }

end CdiTools

namespace CdiTools

instance {e a : Type} [DecidableEq e] [DecidableEq a] : DecidableEq (Except e a) := fun x y =>
  match x, y with
  | .error u, .error v =>
    if h : u = v then .isTrue (by rw [h]) else .isFalse (fun hh => h (Except.error.inj hh))
  | .ok u, .ok v =>
    if h : u = v then .isTrue (by rw [h]) else .isFalse (fun hh => h (Except.ok.inj hh))
  | .error _, .ok _ => .isFalse (fun hh => Except.noConfusion hh)
  | .ok _, .error _ => .isFalse (fun hh => Except.noConfusion hh)

/-! Helper lemmas about the list-level primitives. -/

theorem validateGo_ok_iff (cmap : List (String × Nat)) :
    ∀ l : List Conn, validateGo cmap l = .ok () ↔
      ∀ c ∈ l, ∃ p ∈ cmap, p.1 = c.name := by
  intro l
  induction l with
  | nil => simp [validateGo]
  | cons c rest ih =>
    by_cases h : cmap.any (fun e => e.1 == c.name)
    · simp only [validateGo, h, if_pos]
      rw [ih]
      rw [List.any_eq_true] at h
      obtain ⟨p, hp, hpe⟩ := h
      simp only [beq_iff_eq] at hpe
      constructor
      · intro hall d hd
        rcases List.mem_cons.mp hd with hdc | hdr
        · exact ⟨p, hp, hdc ▸ hpe⟩
        · exact hall d hdr
      · intro hall d hd
        exact hall d (List.mem_cons_of_mem c hd)
    · simp only [validateGo, h, if_neg, Bool.false_eq_true, not_false_iff]
      constructor
      · intro hcontra
        exact absurd hcontra (by simp)
      · intro hall
        exfalso
        obtain ⟨p, hp, hpe⟩ := hall c (List.mem_cons_self c rest)
        exact h (List.any_eq_true.mpr ⟨p, hp, beq_iff_eq.mpr hpe⟩)

/-- Claim C6: validate_configuration raises InvalidConfiguration exactly
when some connection of the channel has no stream mapped to it in the
channel map, and returns normally exactly when every connection has at
least one mapped stream. -/
theorem validate_configuration_iff (ch : Channel) :
    (ch.validate_configuration = .ok () ↔
      ∀ c ∈ ch.connections, ∃ p ∈ ch.channelMap, p.1 = c.name) ∧
    ((∃ e, ch.validate_configuration = .error e) ↔
      ∃ c ∈ ch.connections, ∀ p ∈ ch.channelMap, p.1 ≠ c.name) := by
  have hok := validateGo_ok_iff ch.channelMap ch.connections
  constructor
  · exact hok
  · constructor
    · intro ⟨e, he⟩
      by_contra hno
      push_neg at hno
      have : ch.validate_configuration = .ok () := by
        rw [Channel.validate_configuration, validateGo_ok_iff]
        intro c hc
        obtain ⟨p, hp, hpe⟩ := hno c hc
        exact ⟨p, hp, hpe⟩
      rw [Channel.validate_configuration] at he
      rw [Channel.validate_configuration] at this
      rw [this] at he
      exact Except.noConfusion he
    · intro ⟨c, hc, hnone⟩
      cases hv : ch.validate_configuration with
      | error e => exact ⟨e, rfl⟩
      | ok u =>
        exfalso
        cases u
        have := (hok.mp hv) c hc
        obtain ⟨p, hp, hpe⟩ := this
        exact hnone p hp hpe

theorem filterMapOpenGo (l : List Conn) :
    (l.filterMap fun c =>
        if c.status == ConnectionStatus.Closed then
          some (if c.mode == ConnectionMode.Client then ChanAction.dial c.name
                else ChanAction.accept c.name)
        else none) =
      (l.filter (fun c => c.status == ConnectionStatus.Closed)).map
        (fun c => if c.mode == ConnectionMode.Client then ChanAction.dial c.name
                  else ChanAction.accept c.name) := by
  induction l with
  | nil => rfl
  | cons c rest ih =>
    cases hb : c.status == ConnectionStatus.Closed
    · rw [List.filterMap_cons, List.filter_cons, hb]
      simpa using ih
    · rw [List.filterMap_cons, List.filter_cons, hb]
      simpa using ih

/-- Claim C7: open_connections initiates a dial (Client) or an accept
(Server) exactly for the connections whose status is Closed, and is a
no-op when every connection is Open. -/
theorem open_connections_only_closed (ch : Channel) :
    ch.open_connections_actions =
      (ch.connections.filter (fun c => c.status == ConnectionStatus.Closed)).map
        (fun c => if c.mode == ConnectionMode.Client then ChanAction.dial c.name
                  else ChanAction.accept c.name) ∧
    ((∀ c ∈ ch.connections, c.status = ConnectionStatus.Open) →
      ch.open_connections_actions = []) := by
  constructor
  · exact filterMapOpenGo ch.connections
  · intro hall
    rw [Channel.open_connections_actions, filterMapOpenGo]
    have : ch.connections.filter (fun c => c.status == ConnectionStatus.Closed) = [] := by
      rw [List.filter_eq_nil_iff]
      intro c hc
      rw [hall c hc]
      decide
    rw [this]
    rfl

/-- Claim C7 witness: a channel whose connections are all Open yields no
dial or accept action. -/
theorem open_connections_only_closed_witness :
    ({ chDemo with connections := [connIn, connOutA] } : Channel).open_connections_actions = [] :=
  (open_connections_only_closed _).2 (by decide)

/-- Claim C8: the code violates the uniqueness claim. Registering a second
video stream with an id already in use appends it with no check (the source
carries TODO comments at the add_video_stream, add_audio_stream and
add_ancillary_stream sites admitting the missing validation), so the
channel ends up with two streams of id 7. -/
theorem add_stream_duplicate_id :
    (((Channel.empty.add_video_stream 7 1920 1080 3 30 1).1.add_video_stream
        7 1280 720 2 30 1).1.streams.countP (fun s => s.id == 7)) = 2 := by
  decide

/-- Claim C9: Connection::get_stream on a connection with at least one
bound stream always yields a stream: the first bound stream whose id
matches when the requested id is nonzero and such a stream exists, and the
first bound stream otherwise. -/
theorem conn_get_stream_total (c : Conn) (sid : Nat) (h : c.streams ≠ []) :
    (Conn.get_stream c sid).isSome = true ∧
    (∀ s, sid ≠ 0 → c.streams.find? (fun t => t.id == sid) = some s →
      Conn.get_stream c sid = some s) ∧
    ((sid = 0 ∨ c.streams.find? (fun t => t.id == sid) = none) →
      Conn.get_stream c sid = c.streams.head?) := by
  have hhead : c.streams.head?.isSome = true := by
    cases hc : c.streams with
    | nil => exact absurd hc h
    | cons a l => rfl
  refine ⟨?_, ?_, ?_⟩
  · rw [Conn.get_stream]
    by_cases h0 : sid ≠ 0
    · rw [if_pos h0]
      cases hf : c.streams.find? (fun t => t.id == sid) with
      | none => exact hhead
      | some s => rfl
    · rw [if_neg h0]
      exact hhead
  · intro s h0 hf
    rw [Conn.get_stream, if_pos h0, hf]
  · intro hcase
    rw [Conn.get_stream]
    rcases hcase with h0 | hf
    · rw [if_neg (by simp [h0])]
    · by_cases h0 : sid ≠ 0
      · rw [if_pos h0, hf]
      · rw [if_neg h0]

/-- Claim C9 witness: looking up stream id 1 on a connection bound to the
video stream finds it, and id 0 yields the first bound stream. -/
theorem conn_get_stream_total_witness :
    (Conn.get_stream connIn 1).isSome = true ∧
    Conn.get_stream connIn 1 = some streamV ∧
    Conn.get_stream connIn 0 = connIn.streams.head? :=
  ⟨(conn_get_stream_total connIn 1 (by decide)).1,
   (conn_get_stream_total connIn 1 (by decide)).2.1 streamV (by decide) (by decide),
   (conn_get_stream_total connIn 0 (by decide)).2.2 (Or.inl rfl)⟩

/-- Claim C1: mapping a stream that already has an input connection to a
second input connection fails with the duplicate-input configuration
error, while mapping it to an output connection succeeds for any
recognized stream. -/
theorem map_stream_single_input (ch : Channel) (sid : Nat) (cname : String) (c : Conn)
    (hfind : ch.connections.find? (fun x => x.name == cname) = some c) :
    (c.direction = ConnectionDirection.In →
      ∀ l, ch.get_stream_connections sid ConnectionDirection.In = .ok l → l ≠ [] →
        ch.map_stream sid cname = (ch, .error (.duplicateInput sid))) ∧
    (c.direction = ConnectionDirection.Out →
      ∀ s, ch.get_stream sid = .ok s → s.ptype ≠ PayloadType.Unsupported →
        ∃ ch2, ch.map_stream sid cname = (ch2, .ok ())) := by
  constructor
  · intro hdir l hgs hne
    have hlen : l.length > 0 := List.length_pos.mpr hne
    unfold Channel.map_stream
    simp only [hfind]
    rw [if_pos hdir]
    simp only [hgs]
    rw [if_pos hlen]
  · intro hdir s hgss hsupp
    have hni : ¬(c.direction = ConnectionDirection.In) := by rw [hdir]; decide
    have key : mapStreamRest ch sid cname c =
        ({ ch with
            connections := replaceFirstConn ch.connections cname
              { c with streams := c.streams ++ [s] },
            channelMap := ch.channelMap ++ [(cname, sid)] }, .ok ()) := by
      unfold mapStreamRest
      simp only [hgss]
      unfold Conn.add_stream
      cases hp : s.ptype with
      | Video => rfl
      | Audio => rfl
      | Ancillary => rfl
      | Unsupported => exact absurd hp hsupp
    unfold Channel.map_stream
    simp only [hfind]
    rw [if_neg hni, key]
    exact ⟨_, rfl⟩

/-- Claim C1 witness: on the demo channel, stream 1 is already mapped to
input in0, so mapping it to in0 again fails with the duplicate-input
error, while mapping it again to output a succeeds. -/
theorem map_stream_single_input_witness :
    chDemo.map_stream 1 "in0" = (chDemo, .error (.duplicateInput 1)) ∧
    ∃ ch2, chDemo.map_stream 1 "a" = (ch2, .ok ()) :=
  ⟨(map_stream_single_input chDemo 1 "in0" connIn (by decide)).1 rfl
      [connIn] (by decide) (by decide),
   (map_stream_single_input chDemo 1 "a" connOutA (by decide)).2 rfl
      streamV (by decide) (by decide)⟩

theorem mapStreamRest_spec (ch : Channel) (sid : Nat) (cname : String) (c : Conn) :
    (∀ e, (mapStreamRest ch sid cname c).2 = .error e →
      (mapStreamRest ch sid cname c).1 = ch) ∧
    ((mapStreamRest ch sid cname c).2 = .ok () →
      (mapStreamRest ch sid cname c).1.channelMap = ch.channelMap ++ [(cname, sid)]) := by
  unfold mapStreamRest
  split
  · exact ⟨fun _ _ => rfl, fun h => Except.noConfusion h⟩
  · split
    · exact ⟨fun _ _ => rfl, fun h => Except.noConfusion h⟩
    · exact ⟨fun e h => Except.noConfusion h, fun _ => rfl⟩

/-- Claim C10: map_stream is atomic on error: whenever it reports an
InvalidConfiguration error the whole channel (bimap and every
connection's bound-stream list included) is returned unchanged, and on
success the (connection name, stream id) pair is appended to the bimap. -/
theorem map_stream_atomic (ch : Channel) (sid : Nat) (cname : String) :
    (∀ e, (ch.map_stream sid cname).2 = .error e → (ch.map_stream sid cname).1 = ch) ∧
    ((ch.map_stream sid cname).2 = .ok () →
      (ch.map_stream sid cname).1.channelMap = ch.channelMap ++ [(cname, sid)]) := by
  unfold Channel.map_stream
  split
  · exact ⟨fun _ _ => rfl, fun h => Except.noConfusion h⟩
  · split
    · split
      · exact ⟨fun _ _ => rfl, fun h => Except.noConfusion h⟩
      · split
        · exact ⟨fun _ _ => rfl, fun h => Except.noConfusion h⟩
        · exact mapStreamRest_spec ch sid cname _
    · exact mapStreamRest_spec ch sid cname _

/-- Claim C10 witness: an unknown connection name leaves the demo channel
untouched, and a successful mapping appends exactly the new pair. -/
theorem map_stream_atomic_witness :
    (chDemo.map_stream 1 "nope").1 = chDemo ∧
    (chDemo.map_stream 1 "a").1.channelMap = chDemo.channelMap ++ [("a", 1)] :=
  ⟨(map_stream_atomic chDemo 1 "nope").1 (.unknownConnection "nope") (by decide),
   (map_stream_atomic chDemo 1 "a").2 (by decide)⟩

theorem find?_updateFirstStream (sid : Nat) (f : Stream → Stream)
    (hf : ∀ s, (f s).id = s.id) :
    ∀ (l : List Stream) (s : Stream),
      l.find? (fun t => t.id == sid) = some s →
      (updateFirstStream l sid f).find? (fun t => t.id == sid) = some (f s) := by
  intro l
  induction l with
  | nil => intro s h; exact absurd h (by simp)
  | cons t rest ih =>
    intro s h
    cases hb : (t.id == sid) with
    | false =>
      have h' : rest.find? (fun t => t.id == sid) = some s := by
        rwa [List.find?_cons_of_neg (p := fun t : Stream => t.id == sid) rest (by simp [hb])] at h
      simp only [updateFirstStream, hb, Bool.false_eq_true, if_false]
      rw [List.find?_cons_of_neg (p := fun t : Stream => t.id == sid) _ (by simp [hb])]
      exact ih s h'
    | true =>
      have hts : t = s := by
        rw [List.find?_cons_of_pos (p := fun t : Stream => t.id == sid) rest hb] at h
        exact Option.some.inj h
      simp only [updateFirstStream, hb, if_true]
      rw [List.find?_cons_of_pos (p := fun t : Stream => t.id == sid) _
        (by show ((f t).id == sid) = true; rw [hf t]; exact hb), hts]

theorem write_complete_streams (ch : Channel) (c : Conn) (sid : Nat) (err : Bool) :
    (ch.write_complete c sid err).1.streams =
      (if err then (ch.updateStreamCounter sid Stream.transmitted_payload).updateStreamCounter
          sid Stream.payload_error
       else ch.updateStreamCounter sid Stream.transmitted_payload).streams := by
  cases err with
  | false =>
    simp only [Channel.write_complete, Bool.false_eq_true, if_false]
    cases hl : lookupBuffer (ch.updateStreamCounter sid Stream.transmitted_payload) c.name with
    | none => simp [hl]
    | some cs => simp [hl, Channel.setBuffer]
  | true =>
    simp only [Channel.write_complete, if_true]
    cases hl : lookupBuffer ((ch.updateStreamCounter sid Stream.transmitted_payload).updateStreamCounter
        sid Stream.payload_error) c.name with
    | none => simp [hl]
    | some cs => simp [hl, Channel.setBuffer]

/-- Claim C2 counterexample: a transmit completion carrying an error still
increments the transmitted counter (the source bumps it before looking at
the error code), so the transmitted counter is not incremented only on
success: stream 1 of the demo channel goes from 0 to 1 transmitted
payloads on an errored completion. -/
theorem write_complete_err_also_counts_transmitted :
    ((chDemo.write_complete connOutA 1 true).1.streams.find?
        (fun t => t.id == 1)).map Stream.transmitted = some 1 ∧
    (chDemo.streams.find? (fun t => t.id == 1)).map Stream.transmitted = some 0 := by
  decide

/-- Claim C2 (amended): every transmit completion increments the payload
stream's transmitted counter, and additionally increments its error
counter when the completion carries an error; on success only the
transmitted counter changes. -/
theorem write_complete_counters (ch : Channel) (c : Conn) (sid : Nat) (err : Bool)
    (s : Stream) (hs : ch.streams.find? (fun t => t.id == sid) = some s) :
    (ch.write_complete c sid err).1.streams.find? (fun t => t.id == sid) =
      some { s with transmitted := s.transmitted + 1,
                    errors := s.errors + (if err then 1 else 0) } := by
  have h1 := find?_updateFirstStream sid Stream.transmitted_payload
    (fun _ => rfl) ch.streams s hs
  rw [write_complete_streams]
  cases err with
  | false =>
    simp only [Bool.false_eq_true, if_false]
    show (updateFirstStream ch.streams sid Stream.transmitted_payload).find? _ = _
    rw [h1]
    simp [Stream.transmitted_payload]
  | true =>
    simp only [if_true]
    have h2 := find?_updateFirstStream sid Stream.payload_error
      (fun _ => rfl) _ _ h1
    show (updateFirstStream (updateFirstStream ch.streams sid Stream.transmitted_payload)
        sid Stream.payload_error).find? _ = _
    rw [h2]
    simp [Stream.transmitted_payload, Stream.payload_error]

/-- Claim C2 witness: a successful completion on the demo channel bumps
the transmitted counter of stream 1 and leaves its error counter alone. -/
theorem write_complete_counters_witness :
    (chDemo.write_complete connOutA 1 false).1.streams.find? (fun t => t.id == 1) =
      some { streamV with transmitted := streamV.transmitted + 1,
                          errors := streamV.errors + (if false then 1 else 0) } :=
  write_complete_counters chDemo connOutA 1 false streamV (by decide)

/-- A latched state at exactly the low-water mark of a capacity-5 buffer:
four payloads held, which is exactly 80 percent of capacity. -/
def latchedNearFull : ConnState :=
  { buffer := { capacity := 5, items := [payload0, payload0, payload0, payload0] },
    latched := true }

/-- Claim C3 counterexample: with the latch set and the buffer level at
exactly 80 percent of capacity (4 of 5), the accessor clears the latch
even though the level has not dropped below 80 percent of capacity (the
source keeps the latch only while size exceeds the truncated mark, so it
clears at the mark, not strictly below it). -/
theorem latch_clears_at_low_water_counterexample :
    (get_connection_buffer_step latchedNearFull).1.latched = false ∧
    ¬(latchedNearFull.buffer.size * 5 < latchedNearFull.buffer.capacity * 4) := by
  decide

/-- Claim C3 (amended): for a buffer of positive capacity, the accessor
emits the overflow warning exactly on observing a full buffer with the
latch clear and then leaves the latch set; while the latch is set no
warning is emitted and the latch is cleared exactly when the observed
level is at or below the low-water mark, the floor of 0.8 times capacity
(i.e. at or below 80 percent, rather than strictly below); with the
buffer not full and the latch clear, nothing happens. -/
theorem get_connection_buffer_step_eq (st : ConnState) :
    get_connection_buffer_step st =
      (ConnState.mk st.buffer ((st.latched || st.buffer.is_full) && decide (st.buffer.size > lowWaterMark st.buffer.capacity)), st.buffer.is_full && !st.latched) := by
  unfold get_connection_buffer_step
  cases hl : st.latched <;> cases hfull : st.buffer.is_full <;> simp [hl, hfull]

theorem get_connection_buffer_latch (st : ConnState) (hc : 0 < st.buffer.capacity) :
    ((get_connection_buffer_step st).2 = true ↔
      st.buffer.is_full = true ∧ st.latched = false) ∧
    (st.buffer.is_full = true ∧ st.latched = false →
      (get_connection_buffer_step st).1.latched = true) ∧
    (st.latched = true →
      (get_connection_buffer_step st).2 = false ∧
      ((get_connection_buffer_step st).1.latched = false ↔
        st.buffer.size ≤ lowWaterMark st.buffer.capacity)) ∧
    (st.buffer.is_full = false ∧ st.latched = false →
      (get_connection_buffer_step st).1.latched = false ∧
      (get_connection_buffer_step st).2 = false) := by
  have hlw : lowWaterMark st.buffer.capacity < st.buffer.capacity := by
    rw [lowWaterMark]
    rw [Nat.div_lt_iff_lt_mul (by norm_num : 0 < 5)]
    omega
  rw [get_connection_buffer_step_eq]
  refine ⟨?_, ?_, ?_, ?_⟩
  · cases hl : st.latched <;> simp [hl]
  · intro ⟨hfull, hl⟩
    have hsz : st.buffer.capacity ≤ st.buffer.size := by
      rw [PayloadBuffer.is_full, decide_eq_true_iff] at hfull
      exact hfull
    simp only [hfull, hl, Bool.or_true, Bool.true_and, decide_eq_true_iff]
    omega
  · intro hl
    refine ⟨by simp [hl], ?_⟩
    simp [hl, Nat.not_lt]
  · intro ⟨hfull, hl⟩
    simp [hfull, hl]

theorem find?_setFirstBuffer_ne (l : List (String × ConnState)) (n : String)
    (cs : ConnState) (m : String) (h : m ≠ n) :
    (setFirstBuffer l n cs).find? (fun e => e.1 == m) = l.find? (fun e => e.1 == m) := by
  induction l with
  | nil => rfl
  | cons e rest ih =>
    have hnm : ¬(n = m) := fun hh => h hh.symm
    by_cases hen : e.1 = n
    · have hm : ¬(e.1 = m) := fun hh => h (hh.symm.trans hen)
      simp [setFirstBuffer, hen, List.find?_cons, hm, hnm]
    · by_cases hm : e.1 = m
      · simp [setFirstBuffer, hen, List.find?_cons, hm, hnm, h]
      · simp [setFirstBuffer, hen, List.find?_cons, hm, hnm, h, ih]

theorem find?_setFirstBuffer_isSome (l : List (String × ConnState)) (n : String)
    (cs : ConnState) (m : String) :
    ((setFirstBuffer l n cs).find? (fun e => e.1 == m)).isSome =
      (l.find? (fun e => e.1 == m)).isSome := by
  induction l with
  | nil => rfl
  | cons e rest ih =>
    by_cases hen : e.1 = n
    · by_cases hm : e.1 = m
      · have hnm : n = m := hen.symm.trans hm
        simp [setFirstBuffer, hen, List.find?_cons, hm, hnm]
      · have hnm : ¬(n = m) := fun hh => hm (hen.trans hh)
        simp [setFirstBuffer, hen, List.find?_cons, hm, hnm]
    · rw [show setFirstBuffer (e :: rest) n cs = e :: setFirstBuffer rest n cs from by
        simp [setFirstBuffer, hen]]
      by_cases hm : e.1 = m <;> simp [List.find?_cons, hm, ih]

theorem find?_setFirstBuffer_self (l : List (String × ConnState)) (n : String)
    (cs : ConnState) (h : (l.find? (fun e => e.1 == n)).isSome = true) :
    ((setFirstBuffer l n cs).find? (fun e => e.1 == n)).map (fun e => e.2) = some cs := by
  induction l with
  | nil => exact absurd h (by simp)
  | cons e rest ih =>
    by_cases hen : e.1 = n
    · simp [setFirstBuffer, hen, List.find?_cons]
    · have h' : (rest.find? (fun e => e.1 == n)).isSome = true := by
        simpa [List.find?_cons, hen] using h
      simp [setFirstBuffer, hen, List.find?_cons, ih h']

theorem lookupBuffer_setBuffer_ne (ch : Channel) (n : String) (cs : ConnState)
    (m : String) (h : m ≠ n) :
    lookupBuffer (ch.setBuffer n cs) m = lookupBuffer ch m := by
  unfold lookupBuffer Channel.setBuffer
  rw [find?_setFirstBuffer_ne ch.buffers n cs m h]

theorem lookupBuffer_setBuffer_isSome (ch : Channel) (n : String) (cs : ConnState)
    (m : String) :
    (lookupBuffer (ch.setBuffer n cs) m).isSome = (lookupBuffer ch m).isSome := by
  unfold lookupBuffer Channel.setBuffer
  rw [Option.isSome_map', Option.isSome_map', find?_setFirstBuffer_isSome]

theorem lookupBuffer_setBuffer_self (ch : Channel) (n : String) (cs : ConnState)
    (h : (lookupBuffer ch n).isSome = true) :
    lookupBuffer (ch.setBuffer n cs) n = some cs := by
  unfold lookupBuffer Channel.setBuffer
  unfold lookupBuffer at h
  rw [Option.isSome_map'] at h
  exact find?_setFirstBuffer_self ch.buffers n cs h

theorem lookupBuffer_updateStreamCounter (ch : Channel) (sid : Nat)
    (f : Stream → Stream) (m : String) :
    lookupBuffer (ch.updateStreamCounter sid f) m = lookupBuffer ch m := rfl

theorem processOutput_notOpen (ch : Channel) (sid : Nat) (p : Payload) (o : Conn)
    (ho : o.status ≠ ConnectionStatus.Open) :
    processOutput ch sid p o = (ch, [.openConnections]) := by
  simp only [processOutput, if_pos ho]

theorem processOutput_open (ch : Channel) (sid : Nat) (p : Payload) (o : Conn)
    (cs : ConnState) (ho : o.status = ConnectionStatus.Open)
    (hl : lookupBuffer ch o.name = some cs) :
    processOutput ch sid p o =
      ((if cs.buffer.is_full = true then ch.updateStreamCounter sid Stream.payload_error
        else ch).setBuffer o.name
          (ConnState.mk ((get_connection_buffer_step cs).1.buffer.enqueue p).1
            (get_connection_buffer_step cs).1.latched),
       if (cs.buffer.is_full && !cs.latched) = true then [.overflowWarning o.name] else []) := by
  simp only [processOutput, if_neg (by simp [ho] : ¬o.status ≠ ConnectionStatus.Open), hl]
  rw [get_connection_buffer_step_eq]

theorem processOutput_frame (ch : Channel) (sid : Nat) (p : Payload) (o : Conn)
    (m : String) (h : m ≠ o.name) :
    lookupBuffer (processOutput ch sid p o).1 m = lookupBuffer ch m := by
  simp only [processOutput]
  split
  · rfl
  · split
    · rfl
    · rw [lookupBuffer_setBuffer_ne _ _ _ _ h]
      split <;> rfl

theorem processOutput_isSome (ch : Channel) (sid : Nat) (p : Payload) (o : Conn)
    (m : String) :
    (lookupBuffer (processOutput ch sid p o).1 m).isSome = (lookupBuffer ch m).isSome := by
  simp only [processOutput]
  split
  · rfl
  · split
    · rfl
    · rw [lookupBuffer_setBuffer_isSome]
      split <;> rfl

theorem processOutputs_frame (sid : Nat) (p : Payload) :
    ∀ (outs : List Conn) (ch : Channel) (m : String),
      m ∉ outs.map Conn.name →
      lookupBuffer (processOutputs sid p ch outs).1 m = lookupBuffer ch m := by
  intro outs
  induction outs with
  | nil => intro ch m _; rfl
  | cons o rest ih =>
    intro ch m hm
    rw [List.map_cons, List.mem_cons, not_or] at hm
    show lookupBuffer (processOutputs sid p (processOutput ch sid p o).1 rest).1 m = _
    rw [ih _ m hm.2, processOutput_frame _ _ _ _ _ hm.1]

theorem setBuffer_streams (ch : Channel) (n : String) (cs : ConnState) :
    (ch.setBuffer n cs).streams = ch.streams := rfl

theorem updateStreamCounter_streams (ch : Channel) (sid : Nat) (f : Stream → Stream) :
    (ch.updateStreamCounter sid f).streams = updateFirstStream ch.streams sid f := rfl

theorem processOutputs_cons (sid : Nat) (p : Payload) (ch : Channel) (o : Conn)
    (rest : List Conn) :
    processOutputs sid p ch (o :: rest) =
      ((processOutputs sid p (processOutput ch sid p o).1 rest).1,
       (processOutput ch sid p o).2 ++
         (processOutputs sid p (processOutput ch sid p o).1 rest).2) := rfl

theorem countP_congr_local {α : Type} (p q : α → Bool) :
    ∀ l : List α, (∀ a ∈ l, p a = q a) → l.countP p = l.countP q := by
  intro l
  induction l with
  | nil => intro _; rfl
  | cons a rest ih =>
    intro h
    rw [List.countP_cons, List.countP_cons, h a (List.mem_cons_self a rest),
      ih (fun x hx => h x (List.mem_cons_of_mem a hx))]

/-- The per-output effect of the fan-out loop of read_complete over a list
of output connections, proven by induction: outputs that are not Open keep
their buffer and contribute one open_connections trigger each; Open
outputs get the latch maintenance followed by the enqueue of the payload
applied to their buffer; and the stream error counter grows by one per
Open output whose buffer was full on entry. -/
theorem processOutputs_char (sid : Nat) (p : Payload) :
    ∀ (outs : List Conn) (ch : Channel),
      (outs.map Conn.name).Nodup →
      (∀ o ∈ outs, o.status = ConnectionStatus.Open →
        (lookupBuffer ch o.name).isSome = true) →
      (∀ o ∈ outs, o.status ≠ ConnectionStatus.Open →
        lookupBuffer (processOutputs sid p ch outs).1 o.name = lookupBuffer ch o.name) ∧
      (∀ o ∈ outs, o.status = ConnectionStatus.Open →
        ∀ cs, lookupBuffer ch o.name = some cs →
          lookupBuffer (processOutputs sid p ch outs).1 o.name =
            some (ConnState.mk ((get_connection_buffer_step cs).1.buffer.enqueue p).1
              (get_connection_buffer_step cs).1.latched)) ∧
      ((processOutputs sid p ch outs).2.count ChanAction.openConnections =
        outs.countP (fun o => o.status != ConnectionStatus.Open)) ∧
      (∀ s, ch.streams.find? (fun t => t.id == sid) = some s →
        (processOutputs sid p ch outs).1.streams.find? (fun t => t.id == sid) =
          some { s with errors := s.errors + outs.countP (fun o =>
            o.status == ConnectionStatus.Open &&
            (lookupBuffer ch o.name).elim false (fun cs => cs.buffer.is_full)) }) := by
  intro outs
  induction outs with
  | nil =>
    intro ch _ _
    refine ⟨by simp, by simp, by simp [processOutputs], ?_⟩
    intro s hs
    simpa [processOutputs] using hs
  | cons o rest ih =>
    intro ch hnodup hbuf
    rcases List.nodup_cons.mp (by rwa [List.map_cons] at hnodup) with ⟨hnm, hnodup2⟩
    have hne_rest : ∀ x ∈ rest, x.name ≠ o.name := by
      intro x hx hxeq
      exact hnm (hxeq ▸ List.mem_map_of_mem Conn.name hx)
    by_cases ho : o.status = ConnectionStatus.Open
    · obtain ⟨cs, hcs⟩ := Option.isSome_iff_exists.mp
        (hbuf o (List.mem_cons_self o rest) ho)
      have hstep := processOutput_open ch sid p o cs ho hcs
      have hch1frame : ∀ m, m ≠ o.name →
          lookupBuffer (processOutput ch sid p o).1 m = lookupBuffer ch m :=
        fun m hm => processOutput_frame ch sid p o m hm
      have hbuf1 : ∀ x ∈ rest, x.status = ConnectionStatus.Open →
          (lookupBuffer (processOutput ch sid p o).1 x.name).isSome = true := by
        intro x hx hxo
        rw [processOutput_isSome]
        exact hbuf x (List.mem_cons_of_mem o hx) hxo
      have IH := ih (processOutput ch sid p o).1 hnodup2 hbuf1
      have hch1streams : (processOutput ch sid p o).1.streams =
          (if cs.buffer.is_full = true then updateFirstStream ch.streams sid Stream.payload_error
           else ch.streams) := by
        rw [hstep]
        split
        · rfl
        · rfl
      have hch1self : lookupBuffer (processOutput ch sid p o).1 o.name =
          some (ConnState.mk ((get_connection_buffer_step cs).1.buffer.enqueue p).1
            (get_connection_buffer_step cs).1.latched) := by
        rw [hstep]
        apply lookupBuffer_setBuffer_self
        split
        · rw [lookupBuffer_updateStreamCounter, hcs]; rfl
        · rw [hcs]; rfl
      refine ⟨?_, ?_, ?_, ?_⟩
      · intro x hx hxno
        rcases List.mem_cons.mp hx with hxo | hxr
        · exact absurd (hxo ▸ ho) hxno
        · rw [processOutputs_cons]
          show lookupBuffer (processOutputs sid p (processOutput ch sid p o).1 rest).1 x.name = _
          rw [IH.1 x hxr hxno, hch1frame x.name (hne_rest x hxr)]
      · intro x hx hxo cs' hcs'
        rcases List.mem_cons.mp hx with hxeq | hxr
        · have hcsx : lookupBuffer ch x.name = some cs := by rw [hxeq]; exact hcs
          have hcc : cs' = cs := Option.some.inj (hcs'.symm.trans hcsx)
          rw [processOutputs_cons]
          show lookupBuffer (processOutputs sid p (processOutput ch sid p o).1 rest).1 x.name = _
          rw [hxeq, processOutputs_frame sid p rest _ o.name hnm, hch1self, hcc]
        · rw [processOutputs_cons]
          show lookupBuffer (processOutputs sid p (processOutput ch sid p o).1 rest).1 x.name = _
          refine IH.2.1 x hxr hxo cs' ?_
          rw [hch1frame x.name (hne_rest x hxr), hcs']
      · rw [processOutputs_cons]
        show ((processOutput ch sid p o).2 ++ _).count ChanAction.openConnections = _
        rw [List.count_append, List.countP_cons]
        have hacts : (processOutput ch sid p o).2.count ChanAction.openConnections = 0 := by
          rw [hstep]
          show List.count ChanAction.openConnections
            (if (cs.buffer.is_full && !cs.latched) = true
             then [ChanAction.overflowWarning o.name] else ([] : List ChanAction)) = 0
          split
          · rfl
          · rfl
        rw [hacts, IH.2.2.1]
        simp [ho]
      · intro s hs
        rw [processOutputs_cons]
        show (processOutputs sid p (processOutput ch sid p o).1 rest).1.streams.find? _ = _
        have hkrest : rest.countP (fun x => x.status == ConnectionStatus.Open &&
              (lookupBuffer (processOutput ch sid p o).1 x.name).elim false
                (fun cs => cs.buffer.is_full)) =
            rest.countP (fun x => x.status == ConnectionStatus.Open &&
              (lookupBuffer ch x.name).elim false (fun cs => cs.buffer.is_full)) := by
          apply countP_congr_local
          intro x hx
          rw [hch1frame x.name (hne_rest x hx)]
        rw [List.countP_cons]
        cases hfull : cs.buffer.is_full with
        | true =>
          have hs1 : (processOutput ch sid p o).1.streams.find? (fun t => t.id == sid) =
              some (Stream.payload_error s) := by
            rw [hch1streams, if_pos hfull]
            exact find?_updateFirstStream sid Stream.payload_error (fun _ => rfl)
              ch.streams s hs
          rw [IH.2.2.2 (Stream.payload_error s) hs1, hkrest]
          have hpred : (o.status == ConnectionStatus.Open &&
              (lookupBuffer ch o.name).elim false (fun cs => cs.buffer.is_full)) = true := by
            rw [hcs]
            simp [ho, hfull]
          rw [hpred]
          have h1 : (if (true : Bool) = true then (1 : Nat) else 0) = 1 := rfl
          rw [h1]
          simp only [Option.some.injEq, Stream.mk.injEq, Stream.payload_error]
          refine ⟨?_, ?_, ?_, ?_, ?_⟩ <;> first | trivial | omega
        | false =>
          have hs1 : (processOutput ch sid p o).1.streams.find? (fun t => t.id == sid) =
              some s := by
            rw [hch1streams, if_neg (by simp [hfull])]
            exact hs
          rw [IH.2.2.2 s hs1, hkrest]
          have hpred : (o.status == ConnectionStatus.Open &&
              (lookupBuffer ch o.name).elim false (fun cs => cs.buffer.is_full)) = false := by
            rw [hcs]
            simp [ho, hfull]
          rw [hpred]
          simp
    · have hstep := processOutput_notOpen ch sid p o ho
      have hbuf1 : ∀ x ∈ rest, x.status = ConnectionStatus.Open →
          (lookupBuffer ch x.name).isSome = true :=
        fun x hx hxo => hbuf x (List.mem_cons_of_mem o hx) hxo
      have IH := ih ch hnodup2 hbuf1
      have hch1 : (processOutput ch sid p o).1 = ch := by rw [hstep]
      refine ⟨?_, ?_, ?_, ?_⟩
      · intro x hx hxno
        rcases List.mem_cons.mp hx with hxeq | hxr
        · subst hxeq
          rw [processOutputs_cons]
          show lookupBuffer (processOutputs sid p (processOutput ch sid p x).1 rest).1 x.name = _
          rw [hch1]
          exact processOutputs_frame sid p rest ch x.name hnm
        · rw [processOutputs_cons]
          show lookupBuffer (processOutputs sid p (processOutput ch sid p o).1 rest).1 x.name = _
          rw [hch1]
          exact IH.1 x hxr hxno
      · intro x hx hxo cs' hcs'
        rcases List.mem_cons.mp hx with hxeq | hxr
        · exact absurd (hxeq ▸ hxo : o.status = ConnectionStatus.Open) ho
        · rw [processOutputs_cons]
          show lookupBuffer (processOutputs sid p (processOutput ch sid p o).1 rest).1 x.name = _
          rw [hch1]
          exact IH.2.1 x hxr hxo cs' hcs'
      · rw [processOutputs_cons]
        show ((processOutput ch sid p o).2 ++ _).count ChanAction.openConnections = _
        rw [List.count_append, List.countP_cons, hch1]
        have hacts : (processOutput ch sid p o).2.count ChanAction.openConnections = 1 := by
          rw [hstep]
          rfl
        rw [hacts, IH.2.2.1]
        have hn : (o.status != ConnectionStatus.Open) = true := by simp [ho]
        rw [hn]
        have h1 : (if (true : Bool) = true then (1 : Nat) else 0) = 1 := rfl
        rw [h1]
        omega
      · intro s hs
        rw [processOutputs_cons]
        show (processOutputs sid p (processOutput ch sid p o).1 rest).1.streams.find? _ = _
        rw [hch1, List.countP_cons]
        have hpred : (o.status == ConnectionStatus.Open &&
            (lookupBuffer ch o.name).elim false (fun cs => cs.buffer.is_full)) = false := by
          simp [ho]
        rw [hpred, IH.2.2.2 s hs]
        simp

theorem get_stream_find? (ch : Channel) (sid : Nat) (s : Stream)
    (h : ch.get_stream sid = .ok s) :
    ch.streams.find? (fun t => t.id == sid) = some s := by
  unfold Channel.get_stream at h
  cases hf : ch.streams.find? (fun t => t.id == sid) with
  | none => rw [hf] at h; exact Except.noConfusion h
  | some t => rw [hf] at h; rw [Except.ok.inj h]

/-- Claim C4: on an error-free receive completion whose stream resolves,
every output connection of the payload's stream that is not Open keeps its
buffer untouched while an open_connections trigger is emitted (one per
such output); every Open output has the latch maintenance followed by the
enqueue of the payload applied to its own buffer (the enqueue drops when
the buffer is full); and the stream records one error per Open output
whose buffer was full, on top of its received-counter increment. -/
theorem read_complete_fanout (ch : Channel) (c : Conn) (p : Payload) (s : Stream)
    (outs : List Conn)
    (hs : ch.get_stream p.streamId = .ok s)
    (houts : ch.get_stream_connections p.streamId ConnectionDirection.Out = .ok outs)
    (hnodup : (outs.map Conn.name).Nodup)
    (hbuf : ∀ o ∈ outs, o.status = ConnectionStatus.Open →
      (lookupBuffer ch o.name).isSome = true) :
    (∀ o ∈ outs, o.status ≠ ConnectionStatus.Open →
      lookupBuffer (ch.read_complete c false p).1 o.name = lookupBuffer ch o.name) ∧
    (∀ o ∈ outs, o.status = ConnectionStatus.Open →
      ∀ cs, lookupBuffer ch o.name = some cs →
        lookupBuffer (ch.read_complete c false p).1 o.name =
          some (ConnState.mk ((get_connection_buffer_step cs).1.buffer.enqueue p).1
            (get_connection_buffer_step cs).1.latched)) ∧
    ((ch.read_complete c false p).2.1.count ChanAction.openConnections =
      outs.countP (fun o => o.status != ConnectionStatus.Open)) ∧
    ((ch.read_complete c false p).1.streams.find? (fun t => t.id == p.streamId) =
      some { s with received := s.received + 1,
                    errors := s.errors + outs.countP (fun o =>
                      o.status == ConnectionStatus.Open &&
                      (lookupBuffer ch o.name).elim false
                        (fun cs => cs.buffer.is_full)) }) := by
  have houts1 : (ch.updateStreamCounter p.streamId
      Stream.received_payload).get_stream_connections p.streamId ConnectionDirection.Out =
      Except.ok outs := houts
  have hrc : ch.read_complete c false p =
      ((processOutputs p.streamId p
          (ch.updateStreamCounter p.streamId Stream.received_payload) outs).1,
       (processOutputs p.streamId p
          (ch.updateStreamCounter p.streamId Stream.received_payload) outs).2 ++
         (if c.ctype ≠ ConnectionType.Cdi then [ChanAction.callAsyncRead c.name] else []),
       Except.ok ()) := by
    unfold Channel.read_complete
    simp only [hs]
    have hif : ∀ {α : Type} (x y : α), (if (false : Bool) = true then x else y) = y :=
      fun _ _ => rfl
    simp only [hif]
    simp only [houts1]
  have hbuf1 : ∀ o ∈ outs, o.status = ConnectionStatus.Open →
      (lookupBuffer (ch.updateStreamCounter p.streamId Stream.received_payload)
        o.name).isSome = true := hbuf
  have hchar := processOutputs_char p.streamId p outs
    (ch.updateStreamCounter p.streamId Stream.received_payload) hnodup hbuf1
  have hsf : ch.streams.find? (fun t => t.id == p.streamId) = some s :=
    get_stream_find? ch p.streamId s hs
  have hsf1 : (ch.updateStreamCounter p.streamId
        Stream.received_payload).streams.find? (fun t => t.id == p.streamId) =
      some (Stream.received_payload s) := by
    rw [updateStreamCounter_streams]
    exact find?_updateFirstStream p.streamId Stream.received_payload (fun _ => rfl)
      ch.streams s hsf
  refine ⟨?_, ?_, ?_, ?_⟩
  · intro o ho hno
    rw [hrc]
    exact hchar.1 o ho hno
  · intro o ho hopen cs hcs
    rw [hrc]
    exact hchar.2.1 o ho hopen cs hcs
  · rw [hrc]
    show ((processOutputs p.streamId p _ outs).2 ++ _).count ChanAction.openConnections = _
    rw [List.count_append, hchar.2.2.1]
    have hre : (if c.ctype ≠ ConnectionType.Cdi then [ChanAction.callAsyncRead c.name]
        else ([] : List ChanAction)).count ChanAction.openConnections = 0 := by
      split
      · rfl
      · rfl
    rw [hre]
    omega
  · rw [hrc]
    exact hchar.2.2.2 (Stream.received_payload s) hsf1

/-- Claim C4 witness: on the demo channel (stream 1 mapped to Open output
a with an empty buffer and Closed output b), a successful receive of a
stream-1 payload leaves the buffer of b untouched, appends the payload to
the buffer of a, emits one open_connections trigger, and bumps only the
received counter. -/
theorem read_complete_fanout_witness :
    lookupBuffer (chDemo.read_complete connIn false payload0).1 "b" =
      lookupBuffer chDemo "b" ∧
    lookupBuffer (chDemo.read_complete connIn false payload0).1 "a" =
      some (ConnState.mk
        ((get_connection_buffer_step ⟨⟨2, []⟩, false⟩).1.buffer.enqueue payload0).1
        (get_connection_buffer_step ⟨⟨2, []⟩, false⟩).1.latched) ∧
    (chDemo.read_complete connIn false payload0).2.1.count ChanAction.openConnections =
      [connOutA, connOutB].countP (fun o => o.status != ConnectionStatus.Open) ∧
    (chDemo.read_complete connIn false payload0).1.streams.find?
        (fun t => t.id == payload0.streamId) =
      some { streamV with received := streamV.received + 1,
                          errors := streamV.errors + [connOutA, connOutB].countP (fun o =>
                            o.status == ConnectionStatus.Open &&
                            (lookupBuffer chDemo o.name).elim false
                              (fun cs => cs.buffer.is_full)) } :=
  ⟨(read_complete_fanout chDemo connIn payload0 streamV [connOutA, connOutB]
      (by decide) (by decide) (by decide) (by decide)).1 connOutB (by decide) (by decide),
   (read_complete_fanout chDemo connIn payload0 streamV [connOutA, connOutB]
      (by decide) (by decide) (by decide) (by decide)).2.1 connOutA (by decide) (by decide)
      ⟨⟨2, []⟩, false⟩ (by decide),
   (read_complete_fanout chDemo connIn payload0 streamV [connOutA, connOutB]
      (by decide) (by decide) (by decide) (by decide)).2.2.1,
   (read_complete_fanout chDemo connIn payload0 streamV [connOutA, connOutB]
      (by decide) (by decide) (by decide) (by decide)).2.2.2⟩

/-- Claim C3 witness: a full capacity-2 buffer with the latch clear emits
the warning and latches; the latched capacity-5 state at level 4 emits no
warning and clears the latch since 4 is at the low-water mark. -/
theorem get_connection_buffer_latch_witness :
    (get_connection_buffer_step ⟨⟨2, [payload0, payload0]⟩, false⟩).2 = true ∧
    (get_connection_buffer_step ⟨⟨2, [payload0, payload0]⟩, false⟩).1.latched = true ∧
    (get_connection_buffer_step latchedNearFull).2 = false ∧
    ((get_connection_buffer_step latchedNearFull).1.latched = false ↔
      latchedNearFull.buffer.size ≤ lowWaterMark latchedNearFull.buffer.capacity) :=
  ⟨(get_connection_buffer_latch ⟨⟨2, [payload0, payload0]⟩, false⟩ (by decide)).1.mpr
      ⟨by decide, rfl⟩,
   (get_connection_buffer_latch ⟨⟨2, [payload0, payload0]⟩, false⟩ (by decide)).2.1
      ⟨by decide, rfl⟩,
   ((get_connection_buffer_latch latchedNearFull (by decide)).2.2.1 rfl).1,
   ((get_connection_buffer_latch latchedNearFull (by decide)).2.2.1 rfl).2⟩

theorem countArms_append (l1 l2 : List ChanAction) :
    countArms (l1 ++ l2) = countArms l1 + countArms l2 :=
  List.countP_append _ l1 l2

theorem countAsyncReadCalls_append (l1 l2 : List ChanAction) :
    countAsyncReadCalls (l1 ++ l2) = countAsyncReadCalls l1 + countAsyncReadCalls l2 :=
  List.countP_append _ l1 l2

theorem processOutput_actions_shape (ch : Channel) (sid : Nat) (p : Payload) (o : Conn) :
    ∀ a ∈ (processOutput ch sid p o).2, a = ChanAction.openConnections ∨
      a = ChanAction.assertFailed ∨ ∃ n, a = ChanAction.overflowWarning n := by
  intro a ha
  simp only [processOutput] at ha
  split at ha
  · exact Or.inl (by simpa using ha)
  · split at ha
    · exact Or.inr (Or.inl (by simpa using ha))
    · simp only at ha
      split at ha
      · exact Or.inr (Or.inr ⟨_, by simpa using ha⟩)
      · exact absurd ha (by simp)

theorem processOutputs_no_arm (sid : Nat) (p : Payload) :
    ∀ (outs : List Conn) (ch : Channel),
      countArms (processOutputs sid p ch outs).2 = 0 ∧
      countAsyncReadCalls (processOutputs sid p ch outs).2 = 0 := by
  intro outs
  induction outs with
  | nil => intro ch; exact ⟨rfl, rfl⟩
  | cons o rest ih =>
    intro ch
    rw [processOutputs_cons]
    show countArms ((processOutput ch sid p o).2 ++
        (processOutputs sid p (processOutput ch sid p o).1 rest).2) = 0 ∧
      countAsyncReadCalls ((processOutput ch sid p o).2 ++
        (processOutputs sid p (processOutput ch sid p o).1 rest).2) = 0
    rw [countArms_append, countAsyncReadCalls_append]
    have hshape := processOutput_actions_shape ch sid p o
    have h1 : countArms (processOutput ch sid p o).2 = 0 := by
      rw [countArms, List.countP_eq_zero]
      intro a ha
      rcases hshape a ha with h | h | ⟨n, h⟩ <;> subst h <;> simp
    have h2 : countAsyncReadCalls (processOutput ch sid p o).2 = 0 := by
      rw [countAsyncReadCalls, List.countP_eq_zero]
      intro a ha
      rcases hshape a ha with h | h | ⟨n, h⟩ <;> subst h <;> simp
    rw [h1, h2, (ih (processOutput ch sid p o).1).1, (ih (processOutput ch sid p o).1).2]
    exact ⟨rfl, rfl⟩

theorem read_complete_cdi_no_receive (ch : Channel) (c : Conn) (err : Bool) (p : Payload)
    (hc : c.ctype = ConnectionType.Cdi) :
    countArms (ch.read_complete c err p).2.1 = 0 ∧
    countAsyncReadCalls (ch.read_complete c err p).2.1 = 0 := by
  have hre : (if c.ctype ≠ ConnectionType.Cdi then [ChanAction.callAsyncRead c.name]
      else ([] : List ChanAction)) = [] := by
    rw [if_neg]
    simp [hc]
  unfold Channel.read_complete
  dsimp only
  rw [hre]
  split
  · exact ⟨rfl, rfl⟩
  · split
    · exact ⟨rfl, rfl⟩
    · split
      · exact ⟨rfl, rfl⟩
      · rw [List.append_nil]
        exact processOutputs_no_arm p.streamId p _ _

theorem read_complete_ok_rearm (ch : Channel) (c : Conn) (err : Bool) (p : Payload)
    (hct : c.ctype ≠ ConnectionType.Cdi) :
    (ch.read_complete c err p).2.2 = Except.ok () →
    ChanAction.callAsyncRead c.name ∈ (ch.read_complete c err p).2.1 := by
  unfold Channel.read_complete
  dsimp only
  split
  · intro h
    exact Except.noConfusion h
  · split
    · intro _
      exact List.mem_singleton.mpr rfl
    · split
      · intro h
        exact Except.noConfusion h
      · intro _
        apply List.mem_append_right
        exact List.mem_singleton.mpr rfl

theorem evArms_completed_cdi (c : Conn) (hc : c.ctype = ConnectionType.Cdi)
    (ch : Channel) (active err : Bool) (p : Payload) :
    evArms c (RouterEv.completed ch active err p) = 0 := by
  simp only [evArms]
  rw [(read_complete_cdi_no_receive ch c err p hc).1,
    (read_complete_cdi_no_receive ch c err p hc).2]
  simp

theorem evArms_opened_le (c : Conn) (active ec : Bool) :
    evArms c (RouterEv.opened active ec) ≤ 1 := by
  simp only [evArms, connection_handler_actions]
  cases ec with
  | true =>
    show countArms (if (true : Bool) = true then [ChanAction.invokeHandler] else _) ≤ 1
    rw [if_pos rfl]
    decide
  | false =>
    show countArms (if (false : Bool) = true then [ChanAction.invokeHandler]
      else if (active && c.direction == ConnectionDirection.In) = true then
        (if c.ctype ≠ ConnectionType.Cdi then async_read_actions active c false
         else [ChanAction.armReceive c.name]) ++ [ChanAction.clearOutputBuffers c.name]
      else [ChanAction.callAsyncWrite c.name]) ≤ 1
    rw [if_neg (by simp)]
    by_cases hai : (active && (c.direction == ConnectionDirection.In)) = true
    · rw [if_pos hai]
      have hat : active = true := by
        cases active
        · simp at hai
        · rfl
      by_cases hct : c.ctype ≠ ConnectionType.Cdi
      · rw [if_pos hct, hat]
        have har : async_read_actions true c false = [ChanAction.armReceive c.name] := by
          simp [async_read_actions]
        rw [har]
        simp [countArms, List.countP_append, List.countP_cons]
      · rw [if_neg hct]
        simp [countArms, List.countP_append, List.countP_cons]
    · rw [if_neg hai]
      simp [countArms]

theorem traceArms_le (c : Conn) (hc : c.ctype = ConnectionType.Cdi) :
    ∀ tr : List RouterEv, traceArms c tr ≤ tr.countP RouterEv.isOpened := by
  intro tr
  induction tr with
  | nil => simp [traceArms]
  | cons e rest ih =>
    have hstep : traceArms c (e :: rest) = evArms c e + traceArms c rest := by
      simp [traceArms]
    rw [hstep, List.countP_cons]
    cases e with
    | opened active ec =>
      have h1 := evArms_opened_le c active ec
      have h2 : RouterEv.isOpened (RouterEv.opened active ec) = true := rfl
      rw [h2]
      have h3 : (if (true : Bool) = true then (1 : Nat) else 0) = 1 := rfl
      rw [h3]
      omega
    | completed ch active err p =>
      have h1 := evArms_completed_cdi c hc ch active err p
      have h2 : RouterEv.isOpened (RouterEv.completed ch active err p) = false := rfl
      rw [h1, h2]
      have h3 : (if (false : Bool) = true then (1 : Nat) else 0) = 0 := rfl
      rw [h3]
      omega

/-- Claim C5: for a CDI connection the router arms async_receive at most
once over any event trace in which the connection is opened at most once,
and a receive completion never arms a CDI receive (read_complete does not
re-arm CDI); for every non-CDI connection, read_complete that runs to
completion re-arms by calling async_read. -/
theorem cdi_arm_once (c : Conn) :
    (c.ctype = ConnectionType.Cdi → ∀ tr : List RouterEv,
      tr.countP RouterEv.isOpened ≤ 1 → traceArms c tr ≤ 1) ∧
    (c.ctype = ConnectionType.Cdi → ∀ (ch : Channel) (active err : Bool) (p : Payload),
      evArms c (RouterEv.completed ch active err p) = 0) ∧
    (c.ctype ≠ ConnectionType.Cdi → ∀ (ch : Channel) (err : Bool) (p : Payload),
      (ch.read_complete c err p).2.2 = Except.ok () →
      ChanAction.callAsyncRead c.name ∈ (ch.read_complete c err p).2.1) := by
  refine ⟨?_, ?_, ?_⟩
  · intro hc tr htr
    exact le_trans (traceArms_le c hc tr) htr
  · intro hc ch active err p
    exact evArms_completed_cdi c hc ch active err p
  · intro hct ch err p hok
    exact read_complete_ok_rearm ch c err p hct hok

/-- Claim C5 witness: over a trace with one successful open and one
delivered payload, the CDI demo connection arms its receive at most once;
a completion on it arms nothing; and on the TCP input a completed receive
emits the async_read call. -/
theorem cdi_arm_once_witness :
    traceArms connCdi [RouterEv.opened true false,
      RouterEv.completed chDemo true false payload0] ≤ 1 ∧
    evArms connCdi (RouterEv.completed chDemo true false payload0) = 0 ∧
    ChanAction.callAsyncRead "in0" ∈ (chDemo.read_complete connIn false payload0).2.1 :=
  ⟨(cdi_arm_once connCdi).1 rfl _ (by decide),
   (cdi_arm_once connCdi).2.1 rfl chDemo true false payload0,
   (cdi_arm_once connIn).2.2 (by decide) chDemo false payload0 (by decide)⟩

end CdiTools
